import Mathlib

/-!
Verification of the traffic simulation in `traffic_omp.c`
(repository Mini_Proyecto_Trafico).

The C program is shallowly embedded below: C `double` values are modelled
as exact rationals `ℚ`, C `int` counters as `ℤ` (or `ℕ` where the relevant
claims restrict them to non-negative values), and the mutation of a
`Vehicle*` by `move_vehicle` as a pure function returning the new vehicle
together with the `int` crossing report.  The OpenMP work-sharing in
`run_simulation` computes, for each tick, exactly the sequential result
(independent per-element updates plus an associative, commutative sum
reduction), so one tick is embedded as the pure function `sim_tick` and
the `while` loop as `sim_loop` with explicit fuel.
-/

set_option linter.unusedVariables false

namespace Traffic

/-- `typedef enum { RED = 0, GREEN = 1, YELLOW = 2 } LightState;` -/
inductive LightState where
  | RED : LightState
  | GREEN : LightState
  | YELLOW : LightState
deriving DecidableEq, Repr, Inhabited

open LightState

/-- `TrafficLight` struct: id, current phase, accumulated seconds in the
current phase, and the three configured phase durations. -/
structure TrafficLight where
  id : ℤ
  state : LightState
  time_in_state : ℚ
  t_green : ℚ
  t_yellow : ℚ
  t_red : ℚ
deriving DecidableEq, Repr, Inhabited

/-- `Vehicle` struct: id, lane (0..3 in the program; modelled as `ℕ`
indexing the light list), distance to the stop line `pos`, constant
`speed`, the `waiting` flag, accumulated waiting seconds `total_wait`,
the crossing counter `crossings` (0 or 1) and the terminal flag
`finished`. -/
structure Vehicle where
  id : ℤ
  lane : ℕ
  pos : ℚ
  speed : ℚ
  waiting : Bool
  total_wait : ℚ
  crossings : ℤ
  finished : Bool
deriving DecidableEq, Repr, Inhabited

/-- `Intersection` struct: lane/light counts, the stop offset
`stop_distance` and the array of lights (modelled as a list; the program
keeps `num_lights = lights.length`). -/
structure Intersection where
  num_lanes : ℤ
  num_lights : ℤ
  stop_distance : ℚ
  lights : List TrafficLight
deriving DecidableEq, Repr, Inhabited

/-- `X->lights[V->lane]`: the light of a given lane.  The program indexes
its light array directly; out-of-range lanes (which the program never
produces: lanes are `i % 4` with 4 lights) fall back to `default`. -/
def lightFor (X : Intersection) (lane : ℕ) : TrafficLight :=
  X.lights.getD lane default

/-- `update_traffic_light` (traffic_omp.c lines 56-79): add `dt` to the
time in state, then transition cyclically whenever the accumulated time
reaches the phase's configured duration, resetting the timer to 0. -/
def update_traffic_light (L : TrafficLight) (dt : ℚ) : TrafficLight :=
  match L.state with
  | GREEN =>
      if L.time_in_state + dt ≥ L.t_green then
        { L with state := YELLOW, time_in_state := 0 }
      else
        { L with time_in_state := L.time_in_state + dt }
  | YELLOW =>
      if L.time_in_state + dt ≥ L.t_yellow then
        { L with state := RED, time_in_state := 0 }
      else
        { L with time_in_state := L.time_in_state + dt }
  | RED =>
      if L.time_in_state + dt ≥ L.t_red then
        { L with state := GREEN, time_in_state := 0 }
      else
        { L with time_in_state := L.time_in_state + dt }

/-- The cyclic successor of a phase (GREEN → YELLOW → RED → GREEN). -/
def next_phase : LightState → LightState
  | GREEN => YELLOW
  | YELLOW => RED
  | RED => GREEN

/-- The configured duration of the light's current phase. -/
def phase_duration (L : TrafficLight) : ℚ :=
  match L.state with
  | GREEN => L.t_green
  | YELLOW => L.t_yellow
  | RED => L.t_red

/-- Lines 88-90: a waiting vehicle whose light shows GREEN or YELLOW
stops waiting. -/
def mv_unwait (V : Vehicle) (L : TrafficLight) : Vehicle :=
  if V.waiting ∧ (L.state = GREEN ∨ L.state = YELLOW) then
    { V with waiting := false }
  else V

/-- Lines 92-94: a vehicle that is not waiting advances by `speed * dt`. -/
def mv_advance (V : Vehicle) (dt : ℚ) : Vehicle :=
  if V.waiting then V else { V with pos := V.pos - V.speed * dt }

/-- Line 108: `if (V->waiting) V->total_wait += dt;` — the statement
shared by every path of `move_vehicle` that does not return early. -/
def addWait (V : Vehicle) (dt : ℚ) : Vehicle :=
  if V.waiting then { V with total_wait := V.total_wait + dt } else V

/-- `move_vehicle` (traffic_omp.c lines 83-110).  Returns the updated
vehicle together with the C return value (1 if the vehicle crossed in
this step, 0 otherwise).  A finished vehicle returns immediately. -/
def move_vehicle (V : Vehicle) (X : Intersection) (dt : ℚ) : Vehicle × ℤ :=
  if V.finished then (V, 0)
  else
    if (mv_advance (mv_unwait V (lightFor X V.lane)) dt).pos ≤ 0 then
      if (lightFor X V.lane).state = GREEN ∨ (lightFor X V.lane).state = YELLOW then
        ({ mv_advance (mv_unwait V (lightFor X V.lane)) dt with
             crossings := 1, finished := true, pos := 0 }, 1)
      else
        (addWait { mv_advance (mv_unwait V (lightFor X V.lane)) dt with
                     pos := X.stop_distance, waiting := true } dt, 0)
    else
      (addWait (mv_advance (mv_unwait V (lightFor X V.lane)) dt) dt, 0)

/-- `choose_threads` (lines 181-189), for the non-negative argument range
the claims quantify over.  `max_threads` is the platform bound
`omp_get_max_threads()`. -/
def choose_threads (max_threads n g : ℕ) : ℕ :=
  let by_vehicles := (n + 15) / 16
  let by_greens := if g > 0 then 1 + g / 2 else 1
  let proposed := by_vehicles + by_greens
  let proposed := if proposed < 1 then 1 else proposed
  if proposed > max_threads then max_threads else proposed

/-- The run state mutated by the tick loop of `run_simulation`
(lines 204-249): intersection, vehicle population, cumulative crossed
count, tick counter and simulated time. -/
structure SimState where
  X : Intersection
  vehicles : List Vehicle
  total_crossed : ℤ
  step : ℤ
  sim_time : ℚ
deriving DecidableEq, Repr, Inhabited

/-- The light phase of one tick (lines 223-226): every light advances
by `dt`. -/
def light_phase (X : Intersection) (dt : ℚ) : Intersection :=
  { X with lights := X.lights.map (fun L => update_traffic_light L dt) }

/-- One iteration of the `while` loop of `run_simulation`
(lines 214-249): advance the lights, move every vehicle against the
updated lights, add the tick's crossing count (the OpenMP `reduction`)
to the cumulative count, and advance the tick counter and simulated
time.  The per-tick `crossed_now` markers are consumed only by
`print_state` and are not carried in the state. -/
def sim_tick (dt : ℚ) (s : SimState) : SimState :=
  let X' := light_phase s.X dt
  let moved := s.vehicles.map (fun v => move_vehicle v X' dt)
  { X := X'
    vehicles := moved.map Prod.fst
    total_crossed := s.total_crossed + (moved.map Prod.snd).sum
    step := s.step + 1
    sim_time := s.sim_time + dt }

/-- The `while (total_crossed < num_vehicles)` loop (line 214), with
explicit fuel: `none` means the crossing condition was still false when
the fuel ran out (the C loop would still be running), `some s` means the
loop exited with final state `s`.  The guard is purely crossing-driven:
there is no tick ceiling. -/
def sim_loop (dt : ℚ) (N : ℤ) : ℕ → SimState → Option SimState
  | 0, s => if s.total_crossed < N then none else some s
  | fuel + 1, s =>
      if s.total_crossed < N then sim_loop dt N fuel (sim_tick dt s)
      else some s

/-- The intersection after `n` light phases: the lights advance
independently of the vehicles. -/
def lights_at (X : Intersection) (dt : ℚ) (n : ℕ) : Intersection :=
  { X with lights := X.lights.map (fun L => (fun L' => update_traffic_light L' dt)^[n] L) }

/-- The trajectory of a single vehicle under the tick loop: at tick
`n + 1` it is moved against the lights as updated by that tick's light
phase. -/
def veh_traj (X : Intersection) (dt : ℚ) (v : Vehicle) : ℕ → Vehicle
  | 0 => v
  | n + 1 => (move_vehicle (veh_traj X dt v n) (lights_at X dt (n + 1)) dt).1

/-- The number of vehicles whose `finished` flag is set. -/
def countFinished (vs : List Vehicle) : ℕ :=
  vs.countP (fun v => v.finished)

/-- The final statistics block of `run_simulation` (lines 253-268).
`avg_wait` divides by the `num_vehicles` argument exactly as the C code
does (`avg_wait /= (double)num_vehicles`), with no guard against a zero
or negative count. -/
structure Summary where
  steps : ℤ
  total_crossed : ℤ
  total_crossings : ℤ
  avg_wait : ℚ
  sim_time : ℚ
deriving DecidableEq, Repr, Inhabited

def mk_summary (N : ℤ) (s : SimState) : Summary :=
  { steps := s.step
    total_crossed := s.total_crossed
    total_crossings := (s.vehicles.map (fun v => v.crossings)).sum
    avg_wait := (s.vehicles.map (fun v => v.total_wait)).sum / (N : ℚ)
    sim_time := s.sim_time }

/-- Outcome of `main` on a configuration: either a rejection of the
configuration before the run (the behaviour §7 of the spec requires for
invalid configurations) or a completed run with its final statistics. -/
inductive MainResult where
  | rejected : MainResult
  | ran : Summary → MainResult
deriving DecidableEq, Repr, Inhabited

/-- `main` (lines 275-284) composed with `run_simulation` (lines
192-273): the parsed vehicle count `N` is passed to the tick loop with
no validation anywhere — there is no code path producing a rejection.
The randomized initial population and lights are taken as the parameter
`s₀`; `none` means the loop had not yet terminated within `fuel` ticks. -/
def main_model (N : ℤ) (dt : ℚ) (s₀ : SimState) (fuel : ℕ) : Option MainResult :=
  (sim_loop dt N fuel s₀).map (fun s => MainResult.ran (mk_summary N s))

/-! ### Definitions following the specification's words
(used only to be compared against the code-derived definitions above). -/

/-- Modelled from the spec, §4.2: the motion rule as the four ordered
steps the spec describes — (1) clear the stopped flag under GREEN or
YELLOW, (2) advance if not stopped, (3) resolve a crossing or clamp to
the stop offset, reporting the crossing, (4) accumulate waiting time. -/
def move_vehicle_spec (V : Vehicle) (X : Intersection) (dt : ℚ) : Vehicle × ℤ :=
  let L := lightFor X V.lane
  let V1 := if V.waiting = true ∧ (L.state = GREEN ∨ L.state = YELLOW) then
              { V with waiting := false } else V
  let V2 := if V1.waiting = false then
              { V1 with pos := V1.pos - V1.speed * dt } else V1
  let P : Vehicle × ℤ :=
    if V2.pos ≤ 0 then
      if L.state = GREEN ∨ L.state = YELLOW then
        ({ V2 with finished := true, crossings := 1, pos := 0 }, 1)
      else
        ({ V2 with pos := X.stop_distance, waiting := true }, 0)
    else (V2, 0)
  (if P.1.waiting = true then
     { P.1 with total_wait := P.1.total_wait + dt } else P.1, P.2)

/-- Modelled from the spec, §4.3: the thread-count formula
`clamp(ceil(n/16) + (1 + floor(g/2) if g > 0 else 1), 1, M)`. -/
def choose_threads_spec (M n g : ℕ) : ℕ :=
  let base := (⌈(n : ℚ) / 16⌉).toNat
  let bonus := if g > 0 then 1 + g / 2 else 1
  max 1 (min (base + bonus) M)

/-! ### Basic lemmas about the traffic light update -/

/-- `update_traffic_light` in one equation: transition to the next phase
with the timer reset exactly when the incremented timer reaches the
current phase's duration. -/
theorem upd_char (L : TrafficLight) (dt : ℚ) :
    update_traffic_light L dt =
      if phase_duration L ≤ L.time_in_state + dt then
        { L with state := next_phase L.state, time_in_state := 0 }
      else
        { L with time_in_state := L.time_in_state + dt } := by
  cases L with
  | mk i s t g y r =>
      cases s <;> simp [update_traffic_light, phase_duration, next_phase, ge_iff_le]

theorem upd_id (L : TrafficLight) (dt : ℚ) :
    (update_traffic_light L dt).id = L.id := by
  rw [upd_char]; split <;> rfl

theorem upd_durations (L : TrafficLight) (dt : ℚ) :
    (update_traffic_light L dt).t_green = L.t_green ∧
    (update_traffic_light L dt).t_yellow = L.t_yellow ∧
    (update_traffic_light L dt).t_red = L.t_red := by
  rw [upd_char]; split <;> exact ⟨rfl, rfl, rfl⟩

theorem next_phase_ne (s : LightState) : next_phase s ≠ s := by
  cases s <;> simp [next_phase]

/-! ### Basic lemmas about the vehicle update -/

/-- An already-finished vehicle is left untouched and reports no
crossing (line 84). -/
theorem move_finished (V : Vehicle) (X : Intersection) (dt : ℚ)
    (h : V.finished = true) : move_vehicle V X dt = (V, 0) := by
  simp [move_vehicle, h]

/-- A waiting vehicle whose light is RED, parked at the stop offset,
only accumulates waiting time. -/
theorem move_wait_red (V : Vehicle) (X : Intersection) (dt : ℚ)
    (hfin : V.finished = false) (hw : V.waiting = true)
    (hpos : V.pos = X.stop_distance)
    (hL : (lightFor X V.lane).state = RED) :
    move_vehicle V X dt = ({ V with total_wait := V.total_wait + dt }, 0) := by
  cases V with
  | mk i ln p sp w tw c f =>
      simp only at hfin hw hpos
      subst hfin hw hpos
      simp [move_vehicle, mv_unwait, mv_advance, addWait, hL]

/-- A waiting vehicle whose light turns GREEN or YELLOW resumes; if one
step of motion already reaches the line it crosses at once. -/
theorem move_wait_go (V : Vehicle) (X : Intersection) (dt : ℚ)
    (hfin : V.finished = false) (hw : V.waiting = true)
    (hL : (lightFor X V.lane).state = GREEN ∨ (lightFor X V.lane).state = YELLOW)
    (harrive : V.pos - V.speed * dt ≤ 0) :
    move_vehicle V X dt =
      ({ V with waiting := false, pos := 0, crossings := 1, finished := true }, 1) := by
  cases V with
  | mk i ln p sp w tw c f =>
      simp only at hfin hw harrive
      subst hfin hw
      simp [move_vehicle, mv_unwait, mv_advance, addWait, hL, harrive]

/-- A moving vehicle that does not yet reach the line just advances. -/
theorem move_go_on (V : Vehicle) (X : Intersection) (dt : ℚ)
    (hfin : V.finished = false) (hw : V.waiting = false)
    (h : 0 < V.pos - V.speed * dt) :
    move_vehicle V X dt = ({ V with pos := V.pos - V.speed * dt }, 0) := by
  cases V with
  | mk i ln p sp w tw c f =>
      simp only at hfin hw h
      subst hfin hw
      simp [move_vehicle, mv_unwait, mv_advance, addWait, not_le.mpr h]

/-- A moving vehicle that reaches the line under GREEN or YELLOW
finishes its one crossing, reporting 1. -/
theorem move_arrive_go (V : Vehicle) (X : Intersection) (dt : ℚ)
    (hfin : V.finished = false) (hw : V.waiting = false)
    (harrive : V.pos - V.speed * dt ≤ 0)
    (hL : (lightFor X V.lane).state = GREEN ∨ (lightFor X V.lane).state = YELLOW) :
    move_vehicle V X dt =
      ({ V with pos := 0, crossings := 1, finished := true }, 1) := by
  cases V with
  | mk i ln p sp w tw c f =>
      simp only at hfin hw harrive
      subst hfin hw
      simp [move_vehicle, mv_unwait, mv_advance, addWait, hL, harrive]

/-- A moving vehicle that reaches the line under RED is pushed back to
the stop offset, starts waiting and accumulates `dt` of waiting time. -/
theorem move_arrive_red (V : Vehicle) (X : Intersection) (dt : ℚ)
    (hfin : V.finished = false) (hw : V.waiting = false)
    (harrive : V.pos - V.speed * dt ≤ 0)
    (hL : (lightFor X V.lane).state = RED) :
    move_vehicle V X dt =
      ({ V with pos := X.stop_distance, waiting := true,
                total_wait := V.total_wait + dt }, 0) := by
  cases V with
  | mk i ln p sp w tw c f =>
      simp only at hfin hw harrive
      subst hfin hw
      simp [move_vehicle, mv_unwait, mv_advance, addWait, hL, harrive]

/-- `move_vehicle` never changes a vehicle's identity, lane or speed. -/
theorem move_pres (V : Vehicle) (X : Intersection) (dt : ℚ) :
    ((move_vehicle V X dt).1).id = V.id ∧
    ((move_vehicle V X dt).1).lane = V.lane ∧
    ((move_vehicle V X dt).1).speed = V.speed := by
  simp only [move_vehicle]
  split
  · simp
  · split
    · split
      · simp [mv_advance, mv_unwait]; split_ifs <;> simp
      · simp [addWait, mv_advance, mv_unwait]; split_ifs <;> simp
    · simp [addWait, mv_advance, mv_unwait]; split_ifs <;> simp

/-- A light state that is neither GREEN nor YELLOW is RED. -/
theorem state_red_of_not_go (s : LightState)
    (h : ¬(s = GREEN ∨ s = YELLOW)) : s = RED := by
  cases s <;> simp_all

/-! ### Decomposition of the tick loop -/

theorem lights_at_zero (X : Intersection) (dt : ℚ) : lights_at X dt 0 = X := by
  simp [lights_at]

theorem light_phase_lights_at (X : Intersection) (dt : ℚ) (n : ℕ) :
    light_phase (lights_at X dt n) dt = lights_at X dt (n + 1) := by
  have hfun : ∀ L, update_traffic_light
      ((fun L' => update_traffic_light L' dt)^[n] L) dt =
      (fun L' => update_traffic_light L' dt)^[n + 1] L :=
    fun L => (Function.iterate_succ_apply' (fun L' => update_traffic_light L' dt) n L).symm
  simp only [light_phase, lights_at, List.map_map, Function.comp_def, hfun]

theorem lights_at_stop (X : Intersection) (dt : ℚ) (n : ℕ) :
    (lights_at X dt n).stop_distance = X.stop_distance := rfl

/-- The light seen by a lane after `n` light phases is the `n`-fold
update of the original light of that lane. -/
theorem lightFor_lights_at (X : Intersection) (dt : ℚ) (n : ℕ) (lane : ℕ)
    (h : lane < X.lights.length) :
    lightFor (lights_at X dt n) lane =
      (fun L => update_traffic_light L dt)^[n] (lightFor X lane) := by
  simp only [lightFor, lights_at, List.getD_eq_getElem?_getD, List.getElem?_map]
  rw [List.getElem?_eq_getElem h]
  simp

/-- After `n` ticks the run state decomposes: the lights have advanced
`n` times independently, and each vehicle has followed its own
trajectory against those lights. -/
theorem iter_decomp (dt : ℚ) (s : SimState) (n : ℕ) :
    ((sim_tick dt)^[n] s).X = lights_at s.X dt n ∧
    ((sim_tick dt)^[n] s).vehicles =
      s.vehicles.map (fun v => veh_traj s.X dt v n) := by
  induction n with
  | zero =>
      simp [lights_at_zero, veh_traj]
  | succ n ih =>
      rw [Function.iterate_succ_apply']
      constructor
      · show (light_phase ((sim_tick dt)^[n] s).X dt) = _
        rw [ih.1, light_phase_lights_at]
      · show (((sim_tick dt)^[n] s).vehicles.map
            (fun v => move_vehicle v (light_phase ((sim_tick dt)^[n] s).X dt) dt)).map
              Prod.fst = _
        rw [ih.1, ih.2, light_phase_lights_at, List.map_map, List.map_map]
        rfl

/-- The vehicle count is constant across ticks. -/
theorem iter_length (dt : ℚ) (s : SimState) (n : ℕ) :
    ((sim_tick dt)^[n] s).vehicles.length = s.vehicles.length := by
  rw [(iter_decomp dt s n).2, List.length_map]

/-! ### The crossing count aggregates the finished flags -/

theorem addWait_finished (V : Vehicle) (dt : ℚ) :
    (addWait V dt).finished = V.finished := by
  simp only [addWait]; split_ifs <;> rfl

/-- The crossing report of one call is exactly the change of the
vehicle's `finished` flag, counted as 0 or 1. -/
theorem move_snd_eq_delta (V : Vehicle) (X : Intersection) (dt : ℚ) :
    (move_vehicle V X dt).2 =
      (if ((move_vehicle V X dt).1).finished then (1 : ℤ) else 0) -
      (if V.finished then (1 : ℤ) else 0) := by
  by_cases hfin : V.finished
  · simp [move_finished V X dt hfin, hfin]
  · simp only [Bool.not_eq_true] at hfin
    simp only [move_vehicle, hfin, if_neg Bool.false_ne_true]
    have h1 : (mv_advance (mv_unwait V (lightFor X V.lane)) dt).finished = false := by
      simp [mv_advance, mv_unwait]
      split_ifs <;> simp [hfin]
    split
    · split
      · simp
      · simp [addWait_finished, h1, hfin]
    · simp [addWait_finished, h1, hfin]

/-- One tick adds to `total_crossed` exactly the number of vehicles
that became finished during the tick. -/
theorem tick_crossed (dt : ℚ) (s : SimState) :
    (sim_tick dt s).total_crossed =
      s.total_crossed + (countFinished (sim_tick dt s).vehicles : ℤ) -
        (countFinished s.vehicles : ℤ) := by
  show s.total_crossed + _ = _
  have key : ∀ (X' : Intersection) (vs : List Vehicle),
      ((vs.map (fun v => move_vehicle v X' dt)).map Prod.snd).sum =
        (countFinished ((vs.map (fun v => move_vehicle v X' dt)).map Prod.fst) : ℤ) -
          (countFinished vs : ℤ) := by
    intro X' vs
    induction vs with
    | nil => simp [countFinished]
    | cons v t ih =>
        simp only [List.map_cons, List.sum_cons, countFinished, List.countP_cons] at *
        rw [ih, move_snd_eq_delta v X' dt]
        push_cast
        split_ifs <;> ring
  simp only [sim_tick]
  rw [key]
  ring

/-- At every tick boundary, `total_crossed` differs from the count of
finished vehicles by the initial discrepancy (zero in a real run). -/
theorem iter_crossed (dt : ℚ) (s : SimState)
    (h : s.total_crossed = (countFinished s.vehicles : ℤ)) (n : ℕ) :
    ((sim_tick dt)^[n] s).total_crossed =
      (countFinished ((sim_tick dt)^[n] s).vehicles : ℤ) := by
  induction n with
  | zero => simpa using h
  | succ n ih =>
      rw [Function.iterate_succ_apply', tick_crossed, ih]
      ring

theorem countFinished_le (vs : List Vehicle) : countFinished vs ≤ vs.length :=
  List.countP_le_length _

theorem countFinished_zero (vs : List Vehicle)
    (h : ∀ v ∈ vs, v.finished = false) : countFinished vs = 0 := by
  simp only [countFinished, List.countP_eq_zero]
  intro v hv
  simp [h v hv]

theorem countFinished_all (vs : List Vehicle)
    (h : ∀ v ∈ vs, v.finished = true) : countFinished vs = vs.length := by
  simp only [countFinished]
  rw [List.countP_eq_length]
  intro v hv
  simp [h v hv]

/-! ### The lights keep cycling: GREEN or YELLOW recurs -/

/-- Archimedean step: any threshold is passed after finitely many
increments of `dt`. -/
theorem arch_steps (a b dt : ℚ) (hdt : 0 < dt) :
    ∃ N : ℕ, b ≤ a + (N + 1 : ℕ) * dt := by
  obtain ⟨N, hN⟩ := exists_nat_ge ((b - a) / dt)
  refine ⟨N, ?_⟩
  have h1 : b - a ≤ (N : ℚ) * dt := by
    rwa [div_le_iff₀ hdt] at hN
  push_cast
  nlinarith

/-- A RED light with positive `dt` turns GREEN after finitely many
updates. -/
theorem red_exits (dt : ℚ) (hdt : 0 < dt) :
    ∀ (N : ℕ) (L : TrafficLight), L.state = RED →
      L.t_red ≤ L.time_in_state + (N + 1 : ℕ) * dt →
      ∃ k : ℕ, 1 ≤ k ∧
        ((fun L' => update_traffic_light L' dt)^[k] L).state = GREEN := by
  intro N
  induction N with
  | zero =>
      intro L hst hle
      refine ⟨1, le_refl 1, ?_⟩
      have hdur : phase_duration L = L.t_red := by simp [phase_duration, hst]
      have hcond : phase_duration L ≤ L.time_in_state + dt := by
        rw [hdur]; push_cast at hle; linarith
      simp [Function.iterate_one, upd_char, hcond, hst, next_phase]
  | succ N ih =>
      intro L hst hle
      by_cases hcond : phase_duration L ≤ L.time_in_state + dt
      · refine ⟨1, le_refl 1, ?_⟩
        simp [Function.iterate_one, upd_char, hcond, hst, next_phase]
      · have hupd : update_traffic_light L dt =
            { L with time_in_state := L.time_in_state + dt } := by
          rw [upd_char, if_neg hcond]
        obtain ⟨k, hk1, hkG⟩ := ih (update_traffic_light L dt)
          (by rw [hupd]; exact hst)
          (by rw [hupd]
              show L.t_red ≤ L.time_in_state + dt + _
              push_cast at hle ⊢
              linarith)
        exact ⟨k + 1, by omega, by rwa [Function.iterate_succ_apply]⟩

/-- From any light state, with positive `dt`, some strictly later update
shows GREEN or YELLOW. -/
theorem eventually_gy (dt : ℚ) (hdt : 0 < dt) (L : TrafficLight) :
    ∃ k : ℕ, 1 ≤ k ∧
      (((fun L' => update_traffic_light L' dt)^[k] L).state = GREEN ∨
       ((fun L' => update_traffic_light L' dt)^[k] L).state = YELLOW) := by
  rcases hst : L.state with hred | hgreen | hyellow
  · -- RED: it turns GREEN after finitely many steps
    obtain ⟨N, hN⟩ := arch_steps L.time_in_state L.t_red dt hdt
    obtain ⟨k, hk1, hkG⟩ := red_exits dt hdt N L hst hN
    exact ⟨k, hk1, Or.inl hkG⟩
  · -- GREEN: after one step it is GREEN or YELLOW
    refine ⟨1, le_refl 1, ?_⟩
    rw [Function.iterate_one, upd_char]
    split
    · right; simp [hst, next_phase]
    · left; simpa using hst
  · -- YELLOW: either it stays YELLOW, or it turns RED and then GREEN
    by_cases hcond : phase_duration L ≤ L.time_in_state + dt
    · have hupd : update_traffic_light L dt =
          { L with state := next_phase L.state, time_in_state := 0 } := by
        rw [upd_char, if_pos hcond]
      have hstR : (update_traffic_light L dt).state = RED := by
        rw [hupd]; simp [hst, next_phase]
      obtain ⟨N, hN⟩ := arch_steps 0 L.t_red dt hdt
      have htime : (update_traffic_light L dt).t_red ≤
          (update_traffic_light L dt).time_in_state + (N + 1 : ℕ) * dt := by
        rw [hupd]
        exact hN
      obtain ⟨k, hk1, hkG⟩ := red_exits dt hdt N (update_traffic_light L dt) hstR htime
      exact ⟨k + 1, by omega, by rw [Function.iterate_succ_apply]; exact Or.inl hkG⟩
    · refine ⟨1, le_refl 1, Or.inr ?_⟩
      rw [Function.iterate_one, upd_char, if_neg hcond]
      simpa using hst

/-! ### Every vehicle eventually finishes (given enough per-tick speed) -/

theorem traj_fields (X0 : Intersection) (dt : ℚ) (v : Vehicle) (n : ℕ) :
    (veh_traj X0 dt v n).lane = v.lane ∧ (veh_traj X0 dt v n).speed = v.speed := by
  induction n with
  | zero => exact ⟨rfl, rfl⟩
  | succ n ih =>
      have h := move_pres (veh_traj X0 dt v n) (lights_at X0 dt (n + 1)) dt
      exact ⟨h.2.1.trans ih.1, h.2.2.trans ih.2⟩

/-- The light the vehicle observes at tick `n`. -/
theorem traj_light (X0 : Intersection) (dt : ℚ) (v : Vehicle)
    (hlane : v.lane < X0.lights.length) (n m : ℕ) :
    lightFor (lights_at X0 dt n) (veh_traj X0 dt v m).lane =
      (fun L' => update_traffic_light L' dt)^[n] (lightFor X0 v.lane) := by
  rw [(traj_fields X0 dt v m).1, lightFor_lights_at X0 dt n v.lane hlane]

/-- Once finished, the trajectory is frozen. -/
theorem fin_absorb (X0 : Intersection) (dt : ℚ) (v : Vehicle) (m : ℕ)
    (h : (veh_traj X0 dt v m).finished = true) :
    ∀ j, veh_traj X0 dt v (m + j) = veh_traj X0 dt v m := by
  intro j
  induction j with
  | zero => rfl
  | succ j ih =>
      show (move_vehicle (veh_traj X0 dt v (m + j)) _ _).1 = _
      rw [ih, move_finished _ _ _ h]

/-- While its light stays RED, a vehicle waiting at the stop offset
keeps waiting there; the state can change only by finishing. -/
theorem wait_persists (X0 : Intersection) (dt : ℚ) (v : Vehicle)
    (hdt : 0 < dt) (hlane : v.lane < X0.lights.length)
    (hstop : X0.stop_distance ≤ v.speed * dt) (m : ℕ)
    (hfin : (veh_traj X0 dt v m).finished = false)
    (hw : (veh_traj X0 dt v m).waiting = true)
    (hpos : (veh_traj X0 dt v m).pos = X0.stop_distance) :
    ∀ j, (veh_traj X0 dt v (m + j)).finished = true ∨
      ((veh_traj X0 dt v (m + j)).finished = false ∧
       (veh_traj X0 dt v (m + j)).waiting = true ∧
       (veh_traj X0 dt v (m + j)).pos = X0.stop_distance) := by
  intro j
  induction j with
  | zero => exact Or.inr ⟨hfin, hw, hpos⟩
  | succ j ih =>
      rcases ih with hdone | ⟨hf, hwj, hpj⟩
      · left
        have := fin_absorb X0 dt v (m + j) hdone 1
        rw [show m + (j + 1) = m + j + 1 from rfl, this]
        exact hdone
      · set W := veh_traj X0 dt v (m + j) with hW
        have hstep : veh_traj X0 dt v (m + (j + 1)) =
            (move_vehicle W (lights_at X0 dt (m + j + 1)) dt).1 := rfl
        by_cases hgy : (lightFor (lights_at X0 dt (m + j + 1)) W.lane).state = GREEN ∨
            (lightFor (lights_at X0 dt (m + j + 1)) W.lane).state = YELLOW
        · left
          have harr : W.pos - W.speed * dt ≤ 0 := by
            rw [hpj, (traj_fields X0 dt v (m + j)).2]
            linarith
          rw [hstep, move_wait_go W _ dt hf hwj hgy harr]
        · right
          have hred := state_red_of_not_go _ hgy
          have hpj' : W.pos = (lights_at X0 dt (m + j + 1)).stop_distance := by
            rw [lights_at_stop]; exact hpj
          rw [hstep, move_wait_red W _ dt hf hwj hpj' hred]
          exact ⟨hf, hwj, hpj⟩

/-- A vehicle waiting at the stop offset eventually finishes: its light
eventually shows GREEN or YELLOW, and one step of motion at least covers
the stop offset. -/
theorem wait_crosses (X0 : Intersection) (dt : ℚ) (v : Vehicle)
    (hdt : 0 < dt) (hlane : v.lane < X0.lights.length)
    (hstop : X0.stop_distance ≤ v.speed * dt) (m : ℕ)
    (hfin : (veh_traj X0 dt v m).finished = false)
    (hw : (veh_traj X0 dt v m).waiting = true)
    (hpos : (veh_traj X0 dt v m).pos = X0.stop_distance) :
    ∃ k, 1 ≤ k ∧ (veh_traj X0 dt v (m + k)).finished = true := by
  obtain ⟨k, hk1, hgy⟩ := eventually_gy dt hdt
    ((fun L' => update_traffic_light L' dt)^[m] (lightFor X0 v.lane))
  rw [← Function.iterate_add_apply] at hgy
  refine ⟨k, hk1, ?_⟩
  rcases wait_persists X0 dt v hdt hlane hstop m hfin hw hpos (k - 1)
    with hdone | ⟨hf, hwj, hpj⟩
  · have := fin_absorb X0 dt v (m + (k - 1)) hdone (k - (k - 1))
    rw [show m + (k - 1) + (k - (k - 1)) = m + k by omega] at this
    rw [this]
    exact hdone
  · set W := veh_traj X0 dt v (m + (k - 1)) with hW
    have hstep : veh_traj X0 dt v (m + k) =
        (move_vehicle W (lights_at X0 dt (m + (k - 1) + 1)) dt).1 := by
      rw [show m + k = m + (k - 1) + 1 by omega]
      rfl
    have hgy' : (lightFor (lights_at X0 dt (m + (k - 1) + 1)) W.lane).state = GREEN ∨
        (lightFor (lights_at X0 dt (m + (k - 1) + 1)) W.lane).state = YELLOW := by
      rw [traj_light X0 dt v hlane (m + (k - 1) + 1) (m + (k - 1))]
      rw [show m + (k - 1) + 1 = k + m by omega]
      exact hgy
    have harr : W.pos - W.speed * dt ≤ 0 := by
      rw [hpj, (traj_fields X0 dt v (m + (k - 1))).2]
      linarith
    rw [hstep, move_wait_go W _ dt hf hwj hgy' harr]

/-- A moving vehicle reaches the stop line within finitely many ticks,
where it either crosses or starts waiting at the stop offset. -/
theorem move_resolves (X0 : Intersection) (dt : ℚ) (v : Vehicle)
    (hdt : 0 < dt) (hlane : v.lane < X0.lights.length)
    (hspd : 0 < v.speed) :
    ∀ (N m : ℕ), (veh_traj X0 dt v m).finished = false →
      (veh_traj X0 dt v m).waiting = false →
      (veh_traj X0 dt v m).pos ≤ (N : ℚ) * (v.speed * dt) →
      ∃ k, 1 ≤ k ∧ ((veh_traj X0 dt v (m + k)).finished = true ∨
        ((veh_traj X0 dt v (m + k)).finished = false ∧
         (veh_traj X0 dt v (m + k)).waiting = true ∧
         (veh_traj X0 dt v (m + k)).pos = X0.stop_distance)) := by
  intro N
  induction N with
  | zero =>
      intro m hfin hw hpos
      refine ⟨1, le_refl 1, ?_⟩
      set W := veh_traj X0 dt v m with hW
      have hstep : veh_traj X0 dt v (m + 1) =
          (move_vehicle W (lights_at X0 dt (m + 1)) dt).1 := rfl
      have harr : W.pos - W.speed * dt ≤ 0 := by
        have h1 : W.speed = v.speed := (traj_fields X0 dt v m).2
        have h2 : (0 : ℚ) < v.speed * dt := mul_pos hspd hdt
        simp only [Nat.cast_zero, zero_mul] at hpos
        rw [h1]
        linarith
      by_cases hgy : (lightFor (lights_at X0 dt (m + 1)) W.lane).state = GREEN ∨
          (lightFor (lights_at X0 dt (m + 1)) W.lane).state = YELLOW
      · left
        rw [hstep, move_arrive_go W _ dt hfin hw harr hgy]
      · right
        have hred := state_red_of_not_go _ hgy
        rw [hstep, move_arrive_red W _ dt hfin hw harr hred]
        exact ⟨hfin, rfl, lights_at_stop X0 dt (m + 1)⟩
  | succ N ih =>
      intro m hfin hw hpos
      set W := veh_traj X0 dt v m with hW
      have hsp : W.speed = v.speed := (traj_fields X0 dt v m).2
      have hstep : veh_traj X0 dt v (m + 1) =
          (move_vehicle W (lights_at X0 dt (m + 1)) dt).1 := rfl
      by_cases harr : W.pos - W.speed * dt ≤ 0
      · refine ⟨1, le_refl 1, ?_⟩
        by_cases hgy : (lightFor (lights_at X0 dt (m + 1)) W.lane).state = GREEN ∨
            (lightFor (lights_at X0 dt (m + 1)) W.lane).state = YELLOW
        · left
          rw [hstep, move_arrive_go W _ dt hfin hw harr hgy]
        · right
          have hred := state_red_of_not_go _ hgy
          rw [hstep, move_arrive_red W _ dt hfin hw harr hred]
          exact ⟨hfin, rfl, lights_at_stop X0 dt (m + 1)⟩
      · push_neg at harr
        have hnext : veh_traj X0 dt v (m + 1) =
            { W with pos := W.pos - W.speed * dt } := by
          rw [hstep, move_go_on W _ dt hfin hw harr]
        obtain ⟨k, hk1, hres⟩ := ih (m + 1)
          (by rw [hnext]; simpa using hfin)
          (by rw [hnext]; simpa using hw)
          (by rw [hnext]
              show W.pos - W.speed * dt ≤ _
              rw [hsp]
              push_cast at hpos ⊢
              linarith)
        refine ⟨k + 1, by omega, ?_⟩
        rw [show m + (k + 1) = m + 1 + k by omega]
        exact hres

/-- Every vehicle of the initial population eventually finishes. -/
theorem veh_finishes (X0 : Intersection) (dt : ℚ) (v : Vehicle)
    (hdt : 0 < dt) (hlane : v.lane < X0.lights.length)
    (hspd : 0 < v.speed) (hstop : X0.stop_distance ≤ v.speed * dt)
    (hw : v.waiting = false) (hfin : v.finished = false) :
    ∃ n, (veh_traj X0 dt v n).finished = true := by
  have hsd : (0 : ℚ) < v.speed * dt := mul_pos hspd hdt
  obtain ⟨N, hN⟩ := exists_nat_ge (v.pos / (v.speed * dt))
  have hpos : v.pos ≤ (N : ℚ) * (v.speed * dt) := by
    rwa [div_le_iff₀ hsd] at hN
  obtain ⟨k, hk1, hres⟩ := move_resolves X0 dt v hdt hlane hspd N 0 hfin hw hpos
  rcases hres with hdone | ⟨hf, hwk, hpk⟩
  · exact ⟨k, by simpa using hdone⟩
  · obtain ⟨k', hk'1, hdone⟩ := wait_crosses X0 dt v hdt hlane hstop (0 + k) hf hwk hpk
    exact ⟨0 + k + k', hdone⟩

/-- All vehicles of a population eventually finish simultaneously. -/
theorem all_finish (X0 : Intersection) (dt : ℚ) (hdt : 0 < dt) :
    ∀ vs : List Vehicle,
      (∀ v ∈ vs, v.lane < X0.lights.length ∧ 0 < v.speed ∧
        X0.stop_distance ≤ v.speed * dt ∧ v.waiting = false ∧ v.finished = false) →
      ∃ n, ∀ v ∈ vs, (veh_traj X0 dt v n).finished = true := by
  intro vs
  induction vs with
  | nil => exact fun _ => ⟨0, by simp⟩
  | cons v t ih =>
      intro h
      obtain ⟨hlane, hspd, hstop, hw, hfin⟩ := h v (List.mem_cons_self v t)
      obtain ⟨n₁, hn₁⟩ := veh_finishes X0 dt v hdt hlane hspd hstop hw hfin
      obtain ⟨n₂, hn₂⟩ := ih (fun w hw' => h w (List.mem_cons_of_mem v hw'))
      refine ⟨max n₁ n₂, ?_⟩
      intro w hwmem
      rcases List.mem_cons.mp hwmem with rfl | hmem
      · have := fin_absorb X0 dt w n₁ hn₁ (max n₁ n₂ - n₁)
        rw [show n₁ + (max n₁ n₂ - n₁) = max n₁ n₂ by omega] at this
        rw [this]
        exact hn₁
      · have hfw := hn₂ w hmem
        have := fin_absorb X0 dt w n₂ hfw (max n₁ n₂ - n₂)
        rw [show n₂ + (max n₁ n₂ - n₂) = max n₁ n₂ by omega] at this
        rw [this]
        exact hfw

/-- If the crossing condition holds after some number of ticks, the
`while` loop exits with some fuel. -/
theorem loop_exits (dt : ℚ) (N : ℤ) :
    ∀ (n : ℕ) (s : SimState), ¬ ((sim_tick dt)^[n] s).total_crossed < N →
      ∃ fuel s', sim_loop dt N fuel s = some s' := by
  intro n
  induction n with
  | zero =>
      intro s h
      simp only [Function.iterate_zero_apply] at h
      exact ⟨0, s, by simp [sim_loop, h]⟩
  | succ n ih =>
      intro s h
      by_cases hg : s.total_crossed < N
      · rw [Function.iterate_succ_apply] at h
        obtain ⟨fuel, s', hf⟩ := ih (sim_tick dt s) h
        exact ⟨fuel + 1, s', by simp [sim_loop, hg, hf]⟩
      · exact ⟨0, s, by simp [sim_loop, hg]⟩

/-- Nat ceiling division by 16, as the C idiom `(n + 15) / 16`. -/
theorem ceil_div16 (n : ℕ) : (⌈(n : ℚ) / 16⌉).toNat = (n + 15) / 16 := by
  have hdm := Nat.div_add_mod (n + 15) 16
  have hlt : (n + 15) % 16 < 16 := Nat.mod_lt _ (by norm_num)
  have h1 : 16 * ((n + 15) / 16) ≤ n + 15 := by omega
  have h2 : n + 15 < 16 * ((n + 15) / 16) + 16 := by omega
  have h3 : n ≤ 16 * ((n + 15) / 16) := by omega
  have h4 : 16 * ((n + 15) / 16) < n + 16 := by omega
  have c3 : (n : ℚ) ≤ 16 * (((n + 15) / 16 : ℕ) : ℚ) := by exact_mod_cast h3
  have c4 : (16 : ℚ) * (((n + 15) / 16 : ℕ) : ℚ) < (n : ℚ) + 16 := by
    exact_mod_cast h4
  have hceil : ⌈(n : ℚ) / 16⌉ = (((n + 15) / 16 : ℕ) : ℤ) := by
    rw [Int.ceil_eq_iff]
    have e : ((((n + 15) / 16 : ℕ) : ℤ) : ℚ) = (((n + 15) / 16 : ℕ) : ℚ) :=
      Int.cast_natCast _
    rw [e]
    constructor
    · rw [lt_div_iff₀ (by norm_num : (0 : ℚ) < 16)]
      linarith
    · rw [div_le_iff₀ (by norm_num : (0 : ℚ) < 16)]
      linarith
  rw [hceil, Int.toNat_natCast]

/-! ### Claim theorems -/

/-- C1.  For every non-terminal vehicle, an intersection whose light
array covers its lane and `dt > 0`, `move_vehicle` performs exactly the
four ordered steps of the motion model described by the spec (refinement
of `move_vehicle_spec`), and every non-crossing call returns 0 while a
crossing returns 1. -/
theorem traffic_C1 (V : Vehicle) (X : Intersection) (dt : ℚ)
    (hfin : V.finished = false) (hlane : V.lane < X.lights.length)
    (hdt : 0 < dt) :
    move_vehicle V X dt = move_vehicle_spec V X dt ∧
    ((move_vehicle V X dt).2 = 0 ∨ (move_vehicle V X dt).2 = 1) := by
  constructor
  · cases V with
    | mk vid vlane vpos vspd vw vtw vc vf =>
        simp only at hfin
        subst hfin
        by_cases hgy : (lightFor X vlane).state = GREEN ∨
          (lightFor X vlane).state = YELLOW
        · cases vw <;> by_cases harr : vpos - vspd * dt ≤ 0 <;>
            simp [move_vehicle, move_vehicle_spec, mv_unwait, mv_advance, addWait,
              hgy, harr]
        · cases vw
          · by_cases harr : vpos - vspd * dt ≤ 0 <;>
              simp [move_vehicle, move_vehicle_spec, mv_unwait, mv_advance, addWait,
                hgy, harr]
          · by_cases hpos0 : vpos ≤ 0 <;>
              simp [move_vehicle, move_vehicle_spec, mv_unwait, mv_advance, addWait,
                hgy, hpos0]
  · simp only [move_vehicle, hfin]
    split_ifs <;> simp

/-- C1 witness: a concrete non-terminal vehicle on a covered lane. -/
theorem traffic_C1_witness :
    move_vehicle ⟨0, 0, 5, 1, false, 0, 0, false⟩
        ⟨4, 4, 2, [⟨0, GREEN, 0, 5, 2, 5⟩]⟩ 1 =
      move_vehicle_spec ⟨0, 0, 5, 1, false, 0, 0, false⟩
        ⟨4, 4, 2, [⟨0, GREEN, 0, 5, 2, 5⟩]⟩ 1 ∧
    ((move_vehicle ⟨0, 0, 5, 1, false, 0, 0, false⟩
        ⟨4, 4, 2, [⟨0, GREEN, 0, 5, 2, 5⟩]⟩ 1).2 = 0 ∨
     (move_vehicle ⟨0, 0, 5, 1, false, 0, 0, false⟩
        ⟨4, 4, 2, [⟨0, GREEN, 0, 5, 2, 5⟩]⟩ 1).2 = 1) :=
  traffic_C1 _ _ _ rfl (by simp) (by norm_num)

/-- C2.  `update_traffic_light` adds `dt` to the accumulated time and
then transitions to the cyclically next phase, with the timer reset to
exactly 0 (overshoot discarded), precisely when the accumulated time
reaches the current phase's duration; otherwise the phase is unchanged
and the timer has grown by exactly `dt`.  It is a total pure function of
the current state and `dt`. -/
theorem traffic_C2 (L : TrafficLight) (dt : ℚ) (hdt : 0 < dt) :
    ((update_traffic_light L dt).state ≠ L.state ↔
      phase_duration L ≤ L.time_in_state + dt) ∧
    (phase_duration L ≤ L.time_in_state + dt →
      update_traffic_light L dt =
        { L with state := next_phase L.state, time_in_state := 0 }) ∧
    (L.time_in_state + dt < phase_duration L →
      update_traffic_light L dt =
        { L with time_in_state := L.time_in_state + dt }) := by
  by_cases h : phase_duration L ≤ L.time_in_state + dt
  · have hupd : update_traffic_light L dt =
        { L with state := next_phase L.state, time_in_state := 0 } := by
      rw [upd_char, if_pos h]
    refine ⟨?_, fun _ => hupd, fun habs => absurd h (not_le.mpr habs)⟩
    rw [hupd]
    simp [next_phase_ne, h]
  · have hupd : update_traffic_light L dt =
        { L with time_in_state := L.time_in_state + dt } := by
      rw [upd_char, if_neg h]
    refine ⟨?_, fun habs => absurd habs h, fun _ => hupd⟩
    rw [hupd]
    simp [h]

/-- C2 witness: a concrete GREEN light crossing its threshold. -/
theorem traffic_C2_witness :
    ((update_traffic_light ⟨0, GREEN, 4, 5, 2, 5⟩ 1).state ≠
        (⟨0, GREEN, 4, 5, 2, 5⟩ : TrafficLight).state ↔
      phase_duration ⟨0, GREEN, 4, 5, 2, 5⟩ ≤
        (⟨0, GREEN, 4, 5, 2, 5⟩ : TrafficLight).time_in_state + 1) ∧
    (phase_duration ⟨0, GREEN, 4, 5, 2, 5⟩ ≤
        (⟨0, GREEN, 4, 5, 2, 5⟩ : TrafficLight).time_in_state + 1 →
      update_traffic_light ⟨0, GREEN, 4, 5, 2, 5⟩ 1 =
        ⟨0, next_phase GREEN, 0, 5, 2, 5⟩) ∧
    ((⟨0, GREEN, 4, 5, 2, 5⟩ : TrafficLight).time_in_state + 1 <
        phase_duration ⟨0, GREEN, 4, 5, 2, 5⟩ →
      update_traffic_light ⟨0, GREEN, 4, 5, 2, 5⟩ 1 =
        ⟨0, GREEN, 4 + 1, 5, 2, 5⟩) :=
  traffic_C2 ⟨0, GREEN, 4, 5, 2, 5⟩ 1 (by norm_num)

/-- C6.  `choose_threads` is a pure function of the vehicle count, the
green-light count and the platform maximum `M ≥ 1`, and equals the
spec's clamped formula. -/
theorem traffic_C6 (M n g : ℕ) (hM : 1 ≤ M) :
    choose_threads M n g = choose_threads_spec M n g := by
  simp only [choose_threads, choose_threads_spec, ceil_div16]
  split_ifs <;>
    simp [Nat.max_def, Nat.min_def] <;> split_ifs <;> omega

/-- C6 witness: 100 vehicles, 3 green lights, 8 available workers. -/
theorem traffic_C6_witness :
    choose_threads 8 100 3 = choose_threads_spec 8 100 3 :=
  traffic_C6 8 100 3 (by norm_num)

/-- C10.  A vehicle waiting at the (positive) stop offset under a RED
light only accumulates `dt` of waiting time: position, flags, counters,
identity, lane and speed are all untouched, and the call returns 0. -/
theorem traffic_C10 (V : Vehicle) (X : Intersection) (dt : ℚ)
    (hfin : V.finished = false) (hw : V.waiting = true)
    (hpos : V.pos = X.stop_distance) (hstop : 0 < X.stop_distance)
    (hL : (lightFor X V.lane).state = RED) (hdt : 0 < dt) :
    move_vehicle V X dt = ({ V with total_wait := V.total_wait + dt }, 0) :=
  move_wait_red V X dt hfin hw hpos hL

theorem addWait_crossings (V : Vehicle) (dt : ℚ) :
    (addWait V dt).crossings = V.crossings := by
  simp only [addWait]; split_ifs <;> rfl

theorem mv_pre_crossings (V : Vehicle) (L : TrafficLight) (dt : ℚ) :
    (mv_advance (mv_unwait V L) dt).crossings = V.crossings := by
  simp only [mv_advance, mv_unwait]; split_ifs <;> rfl

/-- One call either keeps `crossings` or sets it to exactly 1. -/
theorem move_crossings (V : Vehicle) (X : Intersection) (dt : ℚ) :
    ((move_vehicle V X dt).1).crossings = V.crossings ∨
    ((move_vehicle V X dt).1).crossings = 1 := by
  by_cases hfin : V.finished
  · left; rw [move_finished _ _ _ hfin]
  · simp only [Bool.not_eq_true] at hfin
    simp only [move_vehicle, hfin, if_neg Bool.false_ne_true]
    split
    · split
      · right; rfl
      · left
        rw [addWait_crossings]
        show (mv_advance (mv_unwait V (lightFor X V.lane)) dt).crossings = _
        exact mv_pre_crossings V _ dt
    · left
      rw [addWait_crossings]
      exact mv_pre_crossings V _ dt

/-- Along a trajectory, `crossings` stays at its initial value or
becomes 1. -/
theorem traj_crossings (X0 : Intersection) (dt : ℚ) (v : Vehicle) (n : ℕ) :
    (veh_traj X0 dt v n).crossings = v.crossings ∨
    (veh_traj X0 dt v n).crossings = 1 := by
  induction n with
  | zero => left; rfl
  | succ n ih =>
      rcases move_crossings (veh_traj X0 dt v n) (lights_at X0 dt (n + 1)) dt with h | h
      · rcases ih with h' | h'
        · left; exact h.trans h'
        · right; exact h.trans h'
      · right; exact h

theorem getD_map_lt {α β : Type} [Inhabited α] [Inhabited β]
    (f : α → β) (l : List α) (i : ℕ) (h : i < l.length) :
    (l.map f).getD i default = f (l.getD i default) := by
  rw [List.getD_eq_getElem?_getD, List.getD_eq_getElem?_getD, List.getElem?_map,
    List.getElem?_eq_getElem h]
  simp

/-- C10 witness: a concrete vehicle parked at the stop offset on RED. -/
theorem traffic_C10_witness :
    move_vehicle ⟨0, 0, 2, 7, true, 3, 0, false⟩
        ⟨4, 4, 2, [⟨0, RED, 1, 5, 2, 5⟩]⟩ 1 =
      (⟨0, 0, 2, 7, true, 3 + 1, 0, false⟩, 0) :=
  traffic_C10 ⟨0, 0, 2, 7, true, 3, 0, false⟩
    ⟨4, 4, 2, [⟨0, RED, 1, 5, 2, 5⟩]⟩ 1 rfl rfl rfl (by norm_num)
    (by simp [lightFor]) (by norm_num)

/-- C4.  Starting from the run's initial state (no vehicle finished,
cumulative count 0), at every tick boundary `total_crossed` equals the
number of vehicles with `finished = true`; and whenever it reaches the
vehicle count (normal termination) it equals it exactly. -/
theorem traffic_C4 (dt : ℚ) (s₀ : SimState)
    (h0 : ∀ v ∈ s₀.vehicles, v.finished = false)
    (htc : s₀.total_crossed = 0) :
    (∀ n : ℕ, ((sim_tick dt)^[n] s₀).total_crossed =
      (countFinished ((sim_tick dt)^[n] s₀).vehicles : ℤ)) ∧
    (∀ n : ℕ, (s₀.vehicles.length : ℤ) ≤ ((sim_tick dt)^[n] s₀).total_crossed →
      ((sim_tick dt)^[n] s₀).total_crossed = (s₀.vehicles.length : ℤ)) := by
  have hbase : s₀.total_crossed = (countFinished s₀.vehicles : ℤ) := by
    rw [htc, countFinished_zero s₀.vehicles h0]
    rfl
  have hmain := fun n => iter_crossed dt s₀ hbase n
  refine ⟨hmain, fun n hge => ?_⟩
  have h1 : countFinished (((sim_tick dt)^[n] s₀).vehicles) ≤ s₀.vehicles.length := by
    have := countFinished_le (((sim_tick dt)^[n] s₀).vehicles)
    rw [iter_length dt s₀ n] at this
    exact this
  have h2 : ((sim_tick dt)^[n] s₀).total_crossed ≤ (s₀.vehicles.length : ℤ) := by
    rw [hmain n]
    exact_mod_cast h1
  omega

/-- C4 witness: one vehicle that crosses at the first tick. -/
theorem traffic_C4_witness :
    ((sim_tick 1)^[2] ⟨⟨4, 4, 2, [⟨0, GREEN, 0, 9, 3, 9⟩]⟩,
        [⟨0, 0, 5, 6, false, 0, 0, false⟩], 0, 0, 0⟩).total_crossed =
      (countFinished ((sim_tick 1)^[2] ⟨⟨4, 4, 2, [⟨0, GREEN, 0, 9, 3, 9⟩]⟩,
        [⟨0, 0, 5, 6, false, 0, 0, false⟩], 0, 0, 0⟩).vehicles : ℤ) :=
  (traffic_C4 1 ⟨⟨4, 4, 2, [⟨0, GREEN, 0, 9, 3, 9⟩]⟩,
      [⟨0, 0, 5, 6, false, 0, 0, false⟩], 0, 0, 0⟩
    (by intro v hv; simp at hv; subst hv; rfl) rfl).1 2

/-- C5.  In every state reachable from an initial population with
`crossings = 0`, each vehicle's `crossings` is 0 or 1; a finished
vehicle is a no-op for `move_vehicle` (returns 0, state untouched), and
its whole record — distance, waiting time and stopped flag included —
is frozen for all subsequent ticks. -/
theorem traffic_C5 (dt : ℚ) (s₀ : SimState)
    (h0 : ∀ v ∈ s₀.vehicles, v.crossings = 0) :
    (∀ n : ℕ, ∀ v ∈ ((sim_tick dt)^[n] s₀).vehicles,
      v.crossings = 0 ∨ v.crossings = 1) ∧
    (∀ (V : Vehicle) (X : Intersection) (dt' : ℚ), V.finished = true →
      move_vehicle V X dt' = (V, 0)) ∧
    (∀ (X0 : Intersection) (v : Vehicle) (n m : ℕ), n ≤ m →
      (veh_traj X0 dt v n).finished = true →
      veh_traj X0 dt v m = veh_traj X0 dt v n) := by
  refine ⟨?_, fun V X dt' h => move_finished V X dt' h, ?_⟩
  · intro n v hv
    rw [(iter_decomp dt s₀ n).2] at hv
    obtain ⟨w, hw, rfl⟩ := List.mem_map.mp hv
    rcases traj_crossings s₀.X dt w n with h | h
    · left; rw [h]; exact h0 w hw
    · right; exact h
  · intro X0 v n m hnm hfin
    have := fin_absorb X0 dt v n hfin (m - n)
    rwa [show n + (m - n) = m by omega] at this

/-- C5 witness: a finished vehicle is left untouched. -/
theorem traffic_C5_witness :
    move_vehicle ⟨0, 0, 0, 6, false, 4, 1, true⟩
        ⟨4, 4, 2, [⟨0, RED, 0, 9, 3, 9⟩]⟩ 1 =
      (⟨0, 0, 0, 6, false, 4, 1, true⟩, 0) :=
  (traffic_C5 1 ⟨⟨4, 4, 2, [⟨0, RED, 0, 9, 3, 9⟩]⟩,
      [⟨0, 0, 5, 6, false, 0, 0, false⟩], 0, 0, 0⟩
    (by intro v hv; simp at hv; subst hv; rfl)).2.1
    ⟨0, 0, 0, 6, false, 4, 1, true⟩ ⟨4, 4, 2, [⟨0, RED, 0, 9, 3, 9⟩]⟩ 1 rfl

theorem iter_durations (L : TrafficLight) (dt : ℚ) (j : ℕ) :
    ((fun L' => update_traffic_light L' dt)^[j] L).t_green = L.t_green ∧
    ((fun L' => update_traffic_light L' dt)^[j] L).t_yellow = L.t_yellow ∧
    ((fun L' => update_traffic_light L' dt)^[j] L).t_red = L.t_red := by
  induction j with
  | zero => exact ⟨rfl, rfl, rfl⟩
  | succ j ih =>
      rw [Function.iterate_succ_apply']
      have h := upd_durations ((fun L' => update_traffic_light L' dt)^[j] L) dt
      exact ⟨h.1.trans ih.1, h.2.1.trans ih.2.1, h.2.2.trans ih.2.2⟩

theorem phase_duration_congr (A B : TrafficLight) (hst : A.state = B.state)
    (hg : A.t_green = B.t_green) (hy : A.t_yellow = B.t_yellow)
    (hr : A.t_red = B.t_red) : phase_duration A = phase_duration B := by
  cases hB : B.state <;> simp [phase_duration, hst, hB, hg, hy, hr]

/-- C8.  Entering a phase with timer 0, the light stays in that phase
for exactly the least `k` ticks with `k * dt ≥` the phase duration, so
the time spent in the phase between two consecutive entries is at least
the configured duration and less than it plus `dt`. -/
theorem traffic_C8 (L : TrafficLight) (dt : ℚ) (k : ℕ)
    (hdt : 0 < dt) (ht0 : L.time_in_state = 0)
    (hdurpos : 0 < phase_duration L) (hk1 : 1 ≤ k)
    (hkge : phase_duration L ≤ (k : ℚ) * dt)
    (hklt : ((k : ℚ) - 1) * dt < phase_duration L) :
    (∀ j < k, ((fun L' => update_traffic_light L' dt)^[j] L).state = L.state ∧
      ((fun L' => update_traffic_light L' dt)^[j] L).time_in_state = (j : ℚ) * dt) ∧
    ((fun L' => update_traffic_light L' dt)^[k] L).state = next_phase L.state ∧
    ((fun L' => update_traffic_light L' dt)^[k] L).time_in_state = 0 ∧
    phase_duration L ≤ (k : ℚ) * dt ∧ (k : ℚ) * dt < phase_duration L + dt := by
  have haux : ∀ j, j < k →
      ((fun L' => update_traffic_light L' dt)^[j] L).state = L.state ∧
      ((fun L' => update_traffic_light L' dt)^[j] L).time_in_state = (j : ℚ) * dt := by
    intro j
    induction j with
    | zero => exact fun _ => ⟨rfl, by simp [ht0]⟩
    | succ j ih =>
        intro hjk
        obtain ⟨hst, htime⟩ := ih (by omega)
        set A := (fun L' => update_traffic_light L' dt)^[j] L with hA
        have hdj := iter_durations L dt j
        have hdur : phase_duration A = phase_duration L :=
          phase_duration_congr A L hst hdj.1 hdj.2.1 hdj.2.2
        have hjle : ((j : ℚ) + 1) ≤ (k : ℚ) - 1 := by
          have : (j : ℚ) + 1 + 1 ≤ (k : ℚ) := by exact_mod_cast by omega
          linarith
        have hnot : ¬ (phase_duration A ≤ A.time_in_state + dt) := by
          rw [hdur, htime]
          intro habs
          have h1 : ((j : ℚ) + 1) * dt ≤ ((k : ℚ) - 1) * dt :=
            mul_le_mul_of_nonneg_right hjle (le_of_lt hdt)
          nlinarith
        rw [Function.iterate_succ_apply', ← hA, upd_char, if_neg hnot]
        refine ⟨hst, ?_⟩
        show A.time_in_state + dt = _
        rw [htime]
        push_cast
        ring
  obtain ⟨hst, htime⟩ := haux (k - 1) (by omega)
  set A := (fun L' => update_traffic_light L' dt)^[k - 1] L with hA
  have hdj := iter_durations L dt (k - 1)
  have hdur : phase_duration A = phase_duration L :=
    phase_duration_congr A L hst hdj.1 hdj.2.1 hdj.2.2
  have hcast : ((k - 1 : ℕ) : ℚ) = (k : ℚ) - 1 := by
    push_cast [Nat.cast_sub hk1]
    ring
  have hcond : phase_duration A ≤ A.time_in_state + dt := by
    rw [hdur, htime, hcast]
    nlinarith
  have hk' : k = (k - 1) + 1 := by omega
  have hfinal : (fun L' => update_traffic_light L' dt)^[k] L =
      { A with state := next_phase A.state, time_in_state := 0 } := by
    rw [hk', Function.iterate_succ_apply', ← hA, upd_char, if_pos hcond]
  refine ⟨haux, ?_, ?_, hkge, by linarith⟩
  · rw [hfinal]
    show next_phase A.state = next_phase L.state
    rw [hst]
  · rw [hfinal]

/-- C8 witness: a GREEN light with duration 5 and `dt = 2` leaves GREEN
after exactly 3 ticks, having spent 6 seconds in the phase. -/
theorem traffic_C8_witness :
    ((fun L' => update_traffic_light L' 2)^[3]
        (⟨0, GREEN, 0, 5, 2, 5⟩ : TrafficLight)).state =
      next_phase GREEN ∧
    ((fun L' => update_traffic_light L' 2)^[3]
        (⟨0, GREEN, 0, 5, 2, 5⟩ : TrafficLight)).time_in_state = 0 ∧
    phase_duration ⟨0, GREEN, 0, 5, 2, 5⟩ ≤ (3 : ℚ) * 2 ∧
    (3 : ℚ) * 2 < phase_duration ⟨0, GREEN, 0, 5, 2, 5⟩ + 2 :=
  (traffic_C8 ⟨0, GREEN, 0, 5, 2, 5⟩ 2 3 (by norm_num) rfl
    (by norm_num [phase_duration]) (by norm_num)
    (by norm_num [phase_duration]) (by norm_num [phase_duration])).2

/-- C9 (amended).  `move_vehicle` reads only the vehicle's own state,
its lane's light and the intersection's stop offset; within a tick the
intersection is changed only by the light phase and every vehicle's new
state is a function of that vehicle's own previous state alone (against
the read-only updated lights), with the population size unchanged. -/
theorem traffic_C9 (V : Vehicle) (X X' : Intersection) (dt : ℚ)
    (s : SimState) (i : ℕ)
    (hL : lightFor X V.lane = lightFor X' V.lane)
    (hstop : X.stop_distance = X'.stop_distance)
    (hi : i < s.vehicles.length) :
    move_vehicle V X dt = move_vehicle V X' dt ∧
    (sim_tick dt s).X = light_phase s.X dt ∧
    (sim_tick dt s).vehicles.getD i default =
      (move_vehicle (s.vehicles.getD i default) (light_phase s.X dt) dt).1 ∧
    (sim_tick dt s).vehicles.length = s.vehicles.length := by
  refine ⟨?_, rfl, ?_, by simp [sim_tick]⟩
  · simp only [move_vehicle, hL, hstop]
  · show ((s.vehicles.map (fun v => move_vehicle v (light_phase s.X dt) dt)).map
        Prod.fst).getD i default = _
    rw [List.map_map]
    exact getD_map_lt _ s.vehicles i hi

/-- C9 witness: two intersections agreeing on the lane light and stop
offset (but not on the bookkeeping counts) are indistinguishable to
`move_vehicle`, and a concrete tick only remaps each vehicle. -/
theorem traffic_C9_witness :
    move_vehicle ⟨0, 0, 5, 1, false, 0, 0, false⟩
        ⟨4, 4, 2, [⟨0, GREEN, 0, 5, 2, 5⟩]⟩ 1 =
      move_vehicle ⟨0, 0, 5, 1, false, 0, 0, false⟩
        ⟨9, 9, 2, [⟨0, GREEN, 0, 5, 2, 5⟩]⟩ 1 ∧
    (sim_tick 1 ⟨⟨4, 4, 2, [⟨0, GREEN, 0, 5, 2, 5⟩]⟩,
        [⟨0, 0, 5, 1, false, 0, 0, false⟩], 0, 0, 0⟩).X =
      light_phase ⟨4, 4, 2, [⟨0, GREEN, 0, 5, 2, 5⟩]⟩ 1 ∧
    (sim_tick 1 ⟨⟨4, 4, 2, [⟨0, GREEN, 0, 5, 2, 5⟩]⟩,
        [⟨0, 0, 5, 1, false, 0, 0, false⟩], 0, 0, 0⟩).vehicles.getD 0 default =
      (move_vehicle (([⟨0, 0, 5, 1, false, 0, 0, false⟩] :
          List Vehicle).getD 0 default)
        (light_phase ⟨4, 4, 2, [⟨0, GREEN, 0, 5, 2, 5⟩]⟩ 1) 1).1 ∧
    (sim_tick 1 ⟨⟨4, 4, 2, [⟨0, GREEN, 0, 5, 2, 5⟩]⟩,
        [⟨0, 0, 5, 1, false, 0, 0, false⟩], 0, 0, 0⟩).vehicles.length =
      ([⟨0, 0, 5, 1, false, 0, 0, false⟩] : List Vehicle).length :=
  traffic_C9 ⟨0, 0, 5, 1, false, 0, 0, false⟩
    ⟨4, 4, 2, [⟨0, GREEN, 0, 5, 2, 5⟩]⟩ ⟨9, 9, 2, [⟨0, GREEN, 0, 5, 2, 5⟩]⟩ 1
    ⟨⟨4, 4, 2, [⟨0, GREEN, 0, 5, 2, 5⟩]⟩,
      [⟨0, 0, 5, 1, false, 0, 0, false⟩], 0, 0, 0⟩ 0 rfl rfl (by simp)

/-- C9 counterexample: the claim's read set is too small — the code also
reads the intersection's stop offset (line 103).  Two intersections
agreeing on the lane's light but with different stop offsets give
different results. -/
theorem traffic_C9_counterexample :
    lightFor ⟨4, 4, 2, [⟨0, RED, 0, 5, 2, 5⟩]⟩ 0 =
      lightFor ⟨4, 4, 3, [⟨0, RED, 0, 5, 2, 5⟩]⟩ 0 ∧
    move_vehicle ⟨0, 0, 1, 1, false, 0, 0, false⟩
        ⟨4, 4, 2, [⟨0, RED, 0, 5, 2, 5⟩]⟩ 1 ≠
      move_vehicle ⟨0, 0, 1, 1, false, 0, 0, false⟩
        ⟨4, 4, 3, [⟨0, RED, 0, 5, 2, 5⟩]⟩ 1 := by
  refine ⟨rfl, ?_⟩
  intro h
  rw [move_arrive_red ⟨0, 0, 1, 1, false, 0, 0, false⟩
        ⟨4, 4, 2, [⟨0, RED, 0, 5, 2, 5⟩]⟩ 1 rfl rfl (by norm_num) rfl,
      move_arrive_red ⟨0, 0, 1, 1, false, 0, 0, false⟩
        ⟨4, 4, 3, [⟨0, RED, 0, 5, 2, 5⟩]⟩ 1 rfl rfl (by norm_num) rfl] at h
  simp only [Prod.mk.injEq, Vehicle.mk.injEq] at h
  norm_num at h

/-! ### C3: the claim's hypotheses do not suffice for termination.

With 4 lights of positive durations (1 s, 1 s, 2 s), `dt = 1` and one
vehicle of speed 1/2 m/s (positive, but covering less than the 2 m stop
offset per tick), the vehicle reaches the stop line only under RED,
forever: the run state cycles with period 4 (up to the monotone
bookkeeping fields) and the loop never exits.  All values are dyadic,
so C `double` arithmetic computes them exactly as `ℚ` does. -/

def c3lB : List TrafficLight :=
  [⟨0, GREEN, 0, 1, 1, 2⟩, ⟨1, RED, 0, 1, 1, 2⟩,
   ⟨2, GREEN, 0, 1, 1, 2⟩, ⟨3, RED, 0, 1, 1, 2⟩]

def c3lC : List TrafficLight :=
  [⟨0, YELLOW, 0, 1, 1, 2⟩, ⟨1, RED, 1, 1, 1, 2⟩,
   ⟨2, YELLOW, 0, 1, 1, 2⟩, ⟨3, RED, 1, 1, 1, 2⟩]

def c3lD : List TrafficLight :=
  [⟨0, RED, 0, 1, 1, 2⟩, ⟨1, GREEN, 0, 1, 1, 2⟩,
   ⟨2, RED, 0, 1, 1, 2⟩, ⟨3, GREEN, 0, 1, 1, 2⟩]

def c3lA : List TrafficLight :=
  [⟨0, RED, 1, 1, 1, 2⟩, ⟨1, YELLOW, 0, 1, 1, 2⟩,
   ⟨2, RED, 1, 1, 1, 2⟩, ⟨3, YELLOW, 0, 1, 1, 2⟩]

def c3vB (w : ℚ) : Vehicle := ⟨0, 0, 3/2, 1/2, false, w, 0, false⟩

def c3vC (w : ℚ) : Vehicle := ⟨0, 0, 1, 1/2, false, w, 0, false⟩

def c3vD (w : ℚ) : Vehicle := ⟨0, 0, 1/2, 1/2, false, w, 0, false⟩

def c3vA (w : ℚ) : Vehicle := ⟨0, 0, 2, 1/2, true, w, 0, false⟩

/-- The four-phase cycle the counterexample run stays in (the waiting
time, tick counter and simulated time grow monotonically but never
influence the dynamics). -/
def c3Inv (s : SimState) : Prop :=
  ∃ (w : ℚ) (st : ℤ) (tm : ℚ),
    s = ⟨⟨4, 4, 2, c3lB⟩, [c3vB w], 0, st, tm⟩ ∨
    s = ⟨⟨4, 4, 2, c3lC⟩, [c3vC w], 0, st, tm⟩ ∨
    s = ⟨⟨4, 4, 2, c3lD⟩, [c3vD w], 0, st, tm⟩ ∨
    s = ⟨⟨4, 4, 2, c3lA⟩, [c3vA w], 0, st, tm⟩

theorem c3_stepB (w : ℚ) (st : ℤ) (tm : ℚ) :
    sim_tick 1 ⟨⟨4, 4, 2, c3lB⟩, [c3vB w], 0, st, tm⟩ =
      ⟨⟨4, 4, 2, c3lC⟩, [c3vC w], 0, st + 1, tm + 1⟩ := by
  have hl : c3lB.map (fun L => update_traffic_light L 1) = c3lC := by
    norm_num [c3lB, c3lC, update_traffic_light]
  have hm : move_vehicle (c3vB w) ⟨4, 4, 2, c3lC⟩ 1 = (c3vC w, 0) := by
    norm_num [move_vehicle, mv_unwait, mv_advance, addWait, lightFor,
      c3vB, c3vC, c3lC]
  simp [sim_tick, light_phase, hl, hm]

theorem c3_stepC (w : ℚ) (st : ℤ) (tm : ℚ) :
    sim_tick 1 ⟨⟨4, 4, 2, c3lC⟩, [c3vC w], 0, st, tm⟩ =
      ⟨⟨4, 4, 2, c3lD⟩, [c3vD w], 0, st + 1, tm + 1⟩ := by
  have hl : c3lC.map (fun L => update_traffic_light L 1) = c3lD := by
    norm_num [c3lC, c3lD, update_traffic_light]
  have hm : move_vehicle (c3vC w) ⟨4, 4, 2, c3lD⟩ 1 = (c3vD w, 0) := by
    norm_num [move_vehicle, mv_unwait, mv_advance, addWait, lightFor,
      c3vC, c3vD, c3lD]
  simp [sim_tick, light_phase, hl, hm]

theorem c3_stepD (w : ℚ) (st : ℤ) (tm : ℚ) :
    sim_tick 1 ⟨⟨4, 4, 2, c3lD⟩, [c3vD w], 0, st, tm⟩ =
      ⟨⟨4, 4, 2, c3lA⟩, [c3vA (w + 1)], 0, st + 1, tm + 1⟩ := by
  have hl : c3lD.map (fun L => update_traffic_light L 1) = c3lA := by
    norm_num [c3lD, c3lA, update_traffic_light]
  have hm : move_vehicle (c3vD w) ⟨4, 4, 2, c3lA⟩ 1 = (c3vA (w + 1), 0) := by
    norm_num [move_vehicle, mv_unwait, mv_advance, addWait, lightFor,
      c3vD, c3vA, c3lA]
    decide
  simp [sim_tick, light_phase, hl, hm]

theorem c3_stepA (w : ℚ) (st : ℤ) (tm : ℚ) :
    sim_tick 1 ⟨⟨4, 4, 2, c3lA⟩, [c3vA w], 0, st, tm⟩ =
      ⟨⟨4, 4, 2, c3lB⟩, [c3vB w], 0, st + 1, tm + 1⟩ := by
  have hl : c3lA.map (fun L => update_traffic_light L 1) = c3lB := by
    norm_num [c3lA, c3lB, update_traffic_light]
  have hm : move_vehicle (c3vA w) ⟨4, 4, 2, c3lB⟩ 1 = (c3vB w, 0) := by
    norm_num [move_vehicle, mv_unwait, mv_advance, addWait, lightFor,
      c3vA, c3vB, c3lB]
  simp [sim_tick, light_phase, hl, hm]

theorem c3_inv_step (s : SimState) (h : c3Inv s) : c3Inv (sim_tick 1 s) := by
  obtain ⟨w, st, tm, h⟩ := h
  rcases h with rfl | rfl | rfl | rfl
  · exact ⟨w, st + 1, tm + 1, by rw [c3_stepB]; tauto⟩
  · exact ⟨w, st + 1, tm + 1, by rw [c3_stepC]; tauto⟩
  · exact ⟨w + 1, st + 1, tm + 1, by rw [c3_stepD]; tauto⟩
  · exact ⟨w, st + 1, tm + 1, by rw [c3_stepA]; tauto⟩

theorem c3_inv_iter (n : ℕ) :
    c3Inv ((sim_tick 1)^[n] ⟨⟨4, 4, 2, c3lB⟩, [c3vB 0], 0, 0, 0⟩) := by
  induction n with
  | zero => exact ⟨0, 0, 0, Or.inl rfl⟩
  | succ n ih =>
      rw [Function.iterate_succ_apply']
      exact c3_inv_step _ ih

theorem c3_inv_crossed (s : SimState) (h : c3Inv s) : s.total_crossed = 0 := by
  obtain ⟨w, st, tm, h⟩ := h
  rcases h with rfl | rfl | rfl | rfl <;> rfl

theorem c3_loop_stuck : ∀ (fuel : ℕ) (s : SimState), c3Inv s →
    sim_loop 1 1 fuel s = none := by
  intro fuel
  induction fuel with
  | zero =>
      intro s h
      have := c3_inv_crossed s h
      simp [sim_loop, this]
  | succ fuel ih =>
      intro s h
      have hc := c3_inv_crossed s h
      have : s.total_crossed < 1 := by omega
      simp only [sim_loop, if_pos this]
      exact ih _ (c3_inv_step s h)

/-- C3 counterexample: a configuration satisfying every hypothesis of
the claim — one vehicle, `dt = 1 > 0`, strictly positive speed, strictly
positive phase durations for all four lights — on which the tick loop of
`run_simulation` never terminates: the cumulative crossed count stays 0
forever and the crossing-driven `while` loop never exits. -/
theorem traffic_C3_counterexample :
    (1 ≤ ([c3vB 0] : List Vehicle).length) ∧ (0 : ℚ) < 1 ∧
    (∀ v ∈ ([c3vB 0] : List Vehicle), 0 < v.speed) ∧
    (∀ L ∈ (⟨4, 4, 2, c3lB⟩ : Intersection).lights,
      0 < L.t_green ∧ 0 < L.t_yellow ∧ 0 < L.t_red) ∧
    (∀ n : ℕ,
      ((sim_tick 1)^[n] ⟨⟨4, 4, 2, c3lB⟩, [c3vB 0], 0, 0, 0⟩).total_crossed <
        ([c3vB 0] : List Vehicle).length) ∧
    (∀ fuel : ℕ,
      sim_loop 1 ([c3vB 0] : List Vehicle).length fuel
        ⟨⟨4, 4, 2, c3lB⟩, [c3vB 0], 0, 0, 0⟩ = none) := by
  refine ⟨by norm_num, by norm_num, ?_, ?_, ?_, ?_⟩
  · intro v hv
    simp only [List.mem_singleton] at hv
    subst hv
    norm_num [c3vB]
  · intro L hL
    simp only [c3lB, List.mem_cons, List.not_mem_nil, or_false] at hL
    rcases hL with rfl | rfl | rfl | rfl <;> norm_num
  · intro n
    have h := c3_inv_crossed _ (c3_inv_iter n)
    rw [h]
    norm_num
  · intro fuel
    exact c3_loop_stuck fuel _ ⟨0, 0, 0, Or.inl rfl⟩

/-- C3 (amended).  The claim's hypotheses are supplemented with the
condition that actually holds for every configuration `run_simulation`
generates (`init_vehicles` draws speeds from 6-14 m/s, `dt = 1`, stop
offset 2 m): each vehicle covers at least the stop offset per tick,
`stop_distance ≤ speed * dt`.  Then the tick loop terminates: after
finitely many ticks the cumulative crossed count reaches the vehicle
count and the purely crossing-driven loop exits. -/
theorem traffic_C3 (dt : ℚ) (s₀ : SimState)
    (hN1 : 1 ≤ s₀.vehicles.length) (hdt : 0 < dt)
    (hveh : ∀ v ∈ s₀.vehicles, v.lane < s₀.X.lights.length ∧ 0 < v.speed ∧
      s₀.X.stop_distance ≤ v.speed * dt ∧ v.waiting = false ∧ v.finished = false)
    (hdur : ∀ L ∈ s₀.X.lights, 0 < L.t_green ∧ 0 < L.t_yellow ∧ 0 < L.t_red)
    (htc : s₀.total_crossed = 0) :
    ∃ n : ℕ, (s₀.vehicles.length : ℤ) ≤ ((sim_tick dt)^[n] s₀).total_crossed ∧
      ∃ fuel s', sim_loop dt (s₀.vehicles.length : ℤ) fuel s₀ = some s' := by
  obtain ⟨n, hn⟩ := all_finish s₀.X dt hdt s₀.vehicles hveh
  have hbase : s₀.total_crossed = (countFinished s₀.vehicles : ℤ) := by
    rw [htc, countFinished_zero s₀.vehicles (fun v hv => (hveh v hv).2.2.2.2)]
    rfl
  have hcross := iter_crossed dt s₀ hbase n
  have hallfin : ∀ w ∈ ((sim_tick dt)^[n] s₀).vehicles, w.finished = true := by
    intro w hw
    rw [(iter_decomp dt s₀ n).2] at hw
    obtain ⟨v, hv, rfl⟩ := List.mem_map.mp hw
    exact hn v hv
  have hcount : countFinished ((sim_tick dt)^[n] s₀).vehicles =
      s₀.vehicles.length := by
    rw [countFinished_all _ hallfin, iter_length]
  have hges : (s₀.vehicles.length : ℤ) ≤ ((sim_tick dt)^[n] s₀).total_crossed := by
    rw [hcross, hcount]
  exact ⟨n, hges, loop_exits dt _ n s₀ (not_lt.mpr hges)⟩

/-- C3 witness: one fast vehicle (speed 3 ≥ stop offset 2 per tick)
against four positive-duration lights. -/
theorem traffic_C3_witness :
    ∃ n : ℕ,
      ((([⟨0, 0, 1, 3, false, 0, 0, false⟩] : List Vehicle).length : ℤ) ≤
        ((sim_tick 1)^[n] ⟨⟨4, 4, 2, c3lB⟩,
          [⟨0, 0, 1, 3, false, 0, 0, false⟩], 0, 0, 0⟩).total_crossed) ∧
      ∃ fuel s', sim_loop 1
        (([⟨0, 0, 1, 3, false, 0, 0, false⟩] : List Vehicle).length : ℤ) fuel
        ⟨⟨4, 4, 2, c3lB⟩, [⟨0, 0, 1, 3, false, 0, 0, false⟩], 0, 0, 0⟩ =
          some s' :=
  traffic_C3 1 ⟨⟨4, 4, 2, c3lB⟩, [⟨0, 0, 1, 3, false, 0, 0, false⟩], 0, 0, 0⟩
    (by norm_num) (by norm_num)
    (by
      intro v hv
      simp only [List.mem_singleton] at hv
      subst hv
      refine ⟨by norm_num [c3lB], by norm_num, by norm_num, rfl, rfl⟩)
    (by
      intro L hL
      simp only [c3lB, List.mem_cons, List.not_mem_nil, or_false] at hL
      rcases hL with rfl | rfl | rfl | rfl <;> norm_num)
    rfl

/-- C7.  The program never rejects any configuration: `main` parses the
vehicle count and calls `run_simulation` unconditionally, and for the
invalid count 0 the run is entered, the loop exits at once (the guard
`0 < 0` is false) and the final-statistics phase is reached — including
the average-wait division by the zero vehicle count. -/
theorem traffic_C7 :
    (∀ (N : ℤ) (dt : ℚ) (s : SimState) (fuel : ℕ),
      main_model N dt s fuel ≠ some MainResult.rejected) ∧
    (∀ fuel : ℕ,
      main_model 0 1 ⟨⟨4, 4, 2, []⟩, [], 0, 0, 0⟩ fuel =
        some (MainResult.ran (mk_summary 0 ⟨⟨4, 4, 2, []⟩, [], 0, 0, 0⟩))) := by
  constructor
  · intro N dt s fuel h
    cases hsl : sim_loop dt N fuel s <;> simp [main_model, hsl] at h
  · intro fuel
    cases fuel <;> simp [main_model, sim_loop]

end Traffic
